import Mathlib

/-!
Verification of the connection-lifecycle logic of `twitch_bot.py`
(class `TwitchBot`): line framing, IRC message parsing, event dispatch,
send operations, and the reconnect supervisor with exponential backoff.

The Python code is shallowly embedded: strings are Lean `String`
(a list of characters), Python string slicing / `find` / `split` /
`strip` / `lstrip` / `lower` are modelled by the `py*` helpers below
(with `lower` restricted to its ASCII action, which is all the bot
relies on), exceptions are modelled by `Option` (with `none` marking a
raised exception), and the socket is abstracted to the list of lines
written to it plus externally supplied receive / send outcomes.
-/

set_option maxHeartbeats 1000000

namespace TwitchBot

/-! ## Python string primitives -/

/-- Python `str.lower` on one character (ASCII range, as in
`Char.toLower`); `twitch_bot.py` only lowercases ASCII channel names. -/
def lowerChar (c : Char) : Char := Char.toLower c

/-- Python `str.lower` (ASCII action). -/
def lowerStr (s : String) : String := String.mk (s.data.map lowerChar)

/-- Python `str.find(c)`: index of the first occurrence, `-1` if absent. -/
def pyFindL (c : Char) : List Char → Int
  | [] => -1
  | x :: xs =>
    if x = c then 0
    else
      let r := pyFindL c xs
      if r = -1 then -1 else r + 1

/-- Resolve a Python slice bound against a list of length `len`
(negative indices count from the end, out-of-range bounds clamp). -/
def pyBoundL (len : Nat) (i : Int) : Nat :=
  if i < 0 then ((len : Int) + i).toNat else min i.toNat len

/-- Python `s[a:b]` on a character list. -/
def pySliceL (s : List Char) (a b : Int) : List Char :=
  (s.take (pyBoundL s.length b)).drop (pyBoundL s.length a)

/-- Python `s[a:]` on a character list. -/
def pySliceFromL (s : List Char) (a : Int) : List Char :=
  s.drop (pyBoundL s.length a)

/-- Python `s.split(c)` with an explicit one-character separator:
splits on every occurrence and keeps empty pieces. -/
def pySplitAll (c : Char) : List Char → List (List Char)
  | [] => [[]]
  | x :: xs =>
    if x = c then [] :: pySplitAll c xs
    else
      match pySplitAll c xs with
      | [] => [[x]]
      | h :: t => (x :: h) :: t

/-- Python `s.split(c, 1)`: split on the first occurrence only. -/
def pySplitMax1 (c : Char) (s : List Char) : List (List Char) :=
  if s.contains c then
    [s.takeWhile (fun x => x ≠ c), (s.dropWhile (fun x => x ≠ c)).tail]
  else [s]

/-- Python tuple unpacking `a, b = l`, which raises unless `l` has
exactly two elements (`none` models the raised exception). -/
def unpack2 {α : Type} : List α → Option (α × α)
  | [a, b] => some (a, b)
  | _ => none

/-- The characters removed by Python `str.strip()`. -/
def isPySpace (c : Char) : Bool :=
  c = ' ' || c = '\t' || c = '\n' || c = '\r' || c = '\x0b' || c = '\x0c'

/-- Python `str.strip()` on a character list. -/
def pyStrip (s : List Char) : List Char :=
  ((s.dropWhile isPySpace).reverse.dropWhile isPySpace).reverse

/-- Python `s.lstrip('#')`. -/
def lstripHash (s : String) : String :=
  (s.data.dropWhile (fun c => c = '#')).asString

/-- Python `' '.join(parts)`. -/
def joinSpaces : List String → String
  | [] => ""
  | [s] => s
  | s :: rest => s ++ " " ++ joinSpaces rest

/-- Strip one leading `:` as the PRIVMSG / NOTICE handlers do. -/
def stripLeadColon (s : String) : String :=
  match s.data with
  | ':' :: rest => rest.asString
  | _ => s

/-- Python dict insertion `d[k] = v`: overwrite in place if the key is
present, otherwise append. -/
def dictInsert (d : List (String × String)) (k v : String) :
    List (String × String) :=
  if d.any (fun p => p.1 = k) then
    d.map (fun p => if p.1 = k then (k, v) else p)
  else d ++ [(k, v)]

/-! ## Message parser (`parse_message`, lines 113-143) -/

/-- The dict built by `parse_message`. -/
structure Parsed where
  raw : String
  tags : List (String × String)
  pfx : String
  command : String
  params : List String
deriving DecidableEq

/-- The tag loop of `parse_message`: for each `;`-piece that contains
`=`, split on the first `=` and insert into the tag dict. `none`
models the (unreachable) failed tuple unpacking. -/
def parseTagsAux : List (List Char) → List (String × String) →
    Option (List (String × String))
  | [], d => some d
  | tag :: rest, d =>
    if tag.contains '=' then
      match unpack2 (pySplitMax1 '=' tag) with
      | some (k, v) => parseTagsAux rest (dictInsert d k.asString v.asString)
      | none => none
    else parseTagsAux rest d

/-- Python `s.startswith(c)` for a one-character needle. -/
def startsWithChar : List Char → Char → Bool
  | [], _ => false
  | x :: _, c => x = c

/-- The tag dict produced by the first stage of `parse_message`
(lines 123-132): if the line starts with `@`, the text up to the first
space (Python `message[1:tags_end]`) is split on `;` and fed to the
tag loop. -/
def parse_tags_part (cs : List Char) : Option (List (String × String)) :=
  if startsWithChar cs '@' then
    parseTagsAux (pySplitAll ';' (pySliceL cs 1 (pyFindL ' ' cs))) []
  else some []

/-- The remainder of the line after the tag stage
(`message = message[tags_end + 1:]`). -/
def after_tags (cs : List Char) : List Char :=
  if startsWithChar cs '@' then pySliceFromL cs (pyFindL ' ' cs + 1) else cs

/-- The prefix extracted by the second stage of `parse_message`
(lines 134-137): `message[1:prefix_end]` when the remaining line
starts with `:`, else the empty string. -/
def pfx_part (m1 : List Char) : String :=
  if startsWithChar m1 ':' then (pySliceL m1 1 (pyFindL ' ' m1)).asString
  else ""

/-- The remainder of the line after the prefix stage. -/
def after_pfx (m1 : List Char) : List Char :=
  if startsWithChar m1 ':' then pySliceFromL m1 (pyFindL ' ' m1 + 1) else m1

/-- `TwitchBot.parse_message`. `none` models a raised exception; the
totality theorem below shows it is never returned. -/
def parse_message (message : String) : Option Parsed :=
  match parse_tags_part message.data with
  | none => none
  | some tags =>
    match pySplitAll ' ' (after_pfx (after_tags message.data)) with
    | [] => none
    | c :: ps =>
      some { raw := message, tags := tags,
             pfx := pfx_part (after_tags message.data),
             command := c.asString, params := ps.map List.asString }

/-- The PRIVMSG branch of `handle_message` (lines 165-173): channel is
`params[0]`, the text is the remaining params rejoined on spaces with
one leading `:` stripped, the sender is the prefix text before the
first `!` (or the whole prefix). Returns `none` when
`len(params) < 2`, where the branch does nothing. -/
def privmsgParts (parsed : Parsed) : Option (String × String × String) :=
  match parsed.params with
  | ch :: p1 :: rest =>
    let msg := stripLeadColon (joinSpaces (p1 :: rest))
    let user :=
      if parsed.pfx.data.contains '!' then
        ((pySplitAll '!' parsed.pfx.data).headD []).asString
      else parsed.pfx
    some (ch, user, msg)
  | _ => none

/-! ## Bot state and send operations -/

/-- The mutable attributes of a `TwitchBot` instance that the
lifecycle logic reads or writes, together with the immutable
configuration set in `__init__`. The socket object itself is
abstracted away: `connected` is the `self.connected` flag (the code
always pairs the `self.socket` truthiness test with it), and each
operation additionally returns the list of lines it wrote to the
socket. -/
structure BotState where
  oauth_token : String
  bot_username : String
  channels : List String
  announce_channel : Option String
  connected : Bool
  running : Bool
  hi_sent : List String
deriving DecidableEq

/-- Python set `add` (membership is what matters, not order). -/
def insertSet (x : String) (s : List String) : List String :=
  if s.contains x then s else x :: s

/-- Python truthiness of an `Optional[str]`: `None` and `""` are falsy. -/
def optTruthy : Option String → Bool
  | none => false
  | some s => !s.isEmpty

/-- `TwitchBot.__init__` (lines 19-41): lowercases the username and
the channel list, lowercases the announce channel if it is truthy
(else stores `None`), and starts disconnected with an empty
`hi_sent` set. -/
def init (oauth_token bot_username : String) (channels : List String)
    (announce_channel : Option String) : BotState :=
  { oauth_token := oauth_token
    bot_username := lowerStr bot_username
    channels := channels.map lowerStr
    announce_channel :=
      if optTruthy announce_channel then
        announce_channel.map lowerStr
      else none
    connected := false
    running := false
    hi_sent := [] }

/-- The line written by `send_message`. -/
def privmsgLine (target message : String) : String :=
  "PRIVMSG #" ++ target ++ " :" ++ message ++ "\r\n"

/-- `TwitchBot.send_message` (lines 79-91). `sendOk` is the outcome of
the underlying `socket.send` (`false` means it raised); `none` models
the uncaught `IndexError` of `self.channels[0]` on an empty channel
list. On a send failure the exception is caught, `connected` is set
to `False` and nothing is emitted. -/
def send_message (st : BotState) (sendOk : Bool) (message : String)
    (channel : Option String) : Option (BotState × List String) :=
  if st.connected then
    let targetOpt : Option String :=
      match channel with
      | some c => some (lowerStr c)
      | none => st.channels.head?
    match targetOpt with
    | none => none
    | some target =>
      if st.channels.contains target then
        if sendOk then some (st, [privmsgLine target message])
        else some ({ st with connected := false }, [])
      else some (st, [])
  else some (st, [])

/-- `TwitchBot.send_pong` (lines 93-101). -/
def send_pong (st : BotState) (sendOk : Bool) (server : String) :
    BotState × List String :=
  if st.connected then
    if sendOk then (st, ["PONG :" ++ server ++ "\r\n"])
    else ({ st with connected := false }, [])
  else (st, [])

/-- `TwitchBot.send_ping` (lines 103-111). -/
def send_ping (st : BotState) (sendOk : Bool) : BotState × List String :=
  if st.connected then
    if sendOk then (st, ["PING :tmi.twitch.tv\r\n"])
    else ({ st with connected := false }, [])
  else (st, [])

/-! ## Event dispatcher (`handle_message`, lines 145-184) -/

/-- The JOIN branch of `handle_message` (lines 157-163): when an
announce channel is configured (and truthy) and the joined channel
(`params[0].lstrip('#').lower()`) equals it and has not been greeted
yet, wait the 2-second grace delay (a pure delay, elided), attempt the
greeting send, then unconditionally record the channel in `hi_sent`. -/
def handle_join (st : BotState) (sendOk : Bool) (parsed : Parsed) :
    Option (BotState × List String) :=
  if optTruthy st.announce_channel then
    match st.announce_channel, parsed.params with
    | some ann, p :: _ =>
      let joined := lowerStr (lstripHash p)
      if joined = ann ∧ !st.hi_sent.contains joined then
        match send_message st sendOk "hi" (some joined) with
        | none => none
        | some (st1, out) =>
          some ({ st1 with hi_sent := insertSet joined st1.hi_sent }, out)
      else some (st, [])
    | _, _ => some (st, [])
  else some (st, [])

/-- `TwitchBot.handle_message`. `sendOk` is the outcome of any socket
send this dispatch performs. -/
def handle_message (st : BotState) (sendOk : Bool) (message : String) :
    Option (BotState × List String) :=
  match parse_message message with
  | none => none
  | some parsed =>
    if parsed.command = "PING" then
      match parsed.params with
      | [] => some (st, [])
      | p :: _ => some (send_pong st sendOk p)
    else if parsed.command = "001" then some (st, [])
    else if parsed.command = "JOIN" then handle_join st sendOk parsed
    else if parsed.command = "PRIVMSG" then some (st, [])
    else if parsed.command = "NOTICE" then some (st, [])
    else if parsed.command = "RECONNECT" then
      some ({ st with connected := false }, [])
    else some (st, [])

/-! ## Connection and process-lifetime traces -/

/-- The lines sent by a successful `TwitchBot.connect` (lines 43-67),
which also sets `connected` to `True`. -/
def connect_success (st : BotState) : BotState × List String :=
  ({ st with connected := true },
   ("PASS " ++ st.oauth_token ++ "\r\n") ::
   ("NICK " ++ st.bot_username ++ "\r\n") ::
   "CAP REQ :twitch.tv/membership\r\n" ::
   "CAP REQ :twitch.tv/tags\r\n" ::
   "CAP REQ :twitch.tv/commands\r\n" ::
   st.channels.map (fun ch => "JOIN #" ++ ch ++ "\r\n"))

/-- A failed `TwitchBot.connect`: the exception is caught, `connected`
is set to `False` and `False` is returned. -/
def connect_fail (st : BotState) : BotState × List String :=
  ({ st with connected := false }, [])

/-- One environment-driven event in the process lifetime: a connect
attempt with its outcome, a dispatched inbound message with the
outcome of any send it performs, or a disconnect (`TwitchBot.disconnect`
or a detected connection loss). -/
inductive Step where
  | connectOk : Step
  | connectFail : Step
  | msg : String → Bool → Step
  | disconnect : Step
deriving DecidableEq

/-- Effect of one lifetime step on the bot state and the socket. -/
def runStep (st : BotState) : Step → Option (BotState × List String)
  | .connectOk => some (connect_success st)
  | .connectFail => some (connect_fail st)
  | .msg line ok => handle_message st ok line
  | .disconnect => some ({ st with connected := false }, [])

/-- Run a whole lifetime trace, accumulating every line sent. -/
def runTrace (st : BotState) : List Step → Option (BotState × List String)
  | [] => some (st, [])
  | s :: rest =>
    match runStep st s with
    | none => none
    | some (st1, out1) =>
      match runTrace st1 rest with
      | none => none
      | some (st2, out2) => some (st2, out1 ++ out2)

/-! ## Line framer (the buffer loop of `listen`, lines 205-210) -/

/-- Repeatedly split the buffer on the first `"\r\n"` (the
`while '\r\n' in buffer: line, buffer = buffer.split('\r\n', 1)` loop),
returning the complete lines in order and the retained remainder.
`acc` holds the reversed characters of the line being scanned. -/
def drainAux : List Char → List Char → List (List Char) × List Char
  | acc, [] => ([], acc.reverse)
  | acc, '\r' :: '\n' :: rest =>
    let r := drainAux [] rest
    (acc.reverse :: r.1, r.2)
  | acc, ch :: rest => drainAux (ch :: acc) rest

/-- Whether the buffer contains the `"\r\n"` terminator. -/
def hasCRLF : List Char → Bool
  | '\r' :: '\n' :: _ => true
  | _ :: rest => hasCRLF rest
  | [] => false

/-- The lines the framer hands to `handle_message`: each complete line
is stripped, and lines that are empty after stripping are dropped
(`if line.strip(): self.handle_message(line.strip())`). -/
def framerEmit (ls : List (List Char)) : List (List Char) :=
  (ls.map pyStrip).filter (fun l => l ≠ [])

/-- Feed a sequence of received chunks through the framer, starting
from the given retained buffer: each chunk is appended to the buffer
and all complete lines are drained, exactly as one `listen` iteration
does per `recv`. Returns the emitted (stripped, non-empty) lines and
the final retained buffer. -/
def feedChunks : List Char → List (List Char) → List (List Char) × List Char
  | buf, [] => ([], buf)
  | buf, c :: cs =>
    let r := drainAux [] (buf ++ c)
    let r2 := feedChunks r.2 cs
    (framerEmit r.1 ++ r2.1, r2.2)

/-! ## Read loop (`listen`, lines 186-217) -/

/-- The outcome of one `socket.recv` call in `listen`. -/
inductive RecvEvent where
  | timeout : RecvEvent
  | closed : RecvEvent
  | err : RecvEvent
  | data : List Char → RecvEvent
deriving DecidableEq

/-- The environment inputs of one `listen` iteration: whether the
ping-interval check fires (abstracting the `time.time()` comparison),
the `recv` outcome, and the outcome of any socket send performed in
this iteration. -/
structure LoopInput where
  pingDue : Bool
  ev : RecvEvent
  sendOk : Bool
deriving DecidableEq

/-- Dispatch a batch of framed lines in order (the inner line loop of
one `listen` iteration); the line loop keeps draining the buffer even
after a dispatch drops `connected`. -/
def handleLines (st : BotState) (ok : Bool) :
    List (List Char) → Option (BotState × List String)
  | [] => some (st, [])
  | l :: ls =>
    match handle_message st ok l.asString with
    | none => none
    | some (st1, out1) =>
      match handleLines st1 ok ls with
      | none => none
      | some (st2, out2) => some (st2, out1 ++ out2)

/-- `TwitchBot.listen` driven by a finite script of per-iteration
inputs: the loop runs while `self.running and self.connected`, sends a
keepalive PING when due, then acts on the `recv` outcome (timeout:
continue; empty data / read error / caught dispatch exception: set
`connected` to `False` and break; data: drain and dispatch). Returns
the final state, the retained buffer, and all lines sent. The
function always returns (every exception inside the loop body is
caught), modelling that the read loop never raises a fatal error. -/
def listenGo (st : BotState) (buf : List Char) :
    List LoopInput → BotState × List Char × List String
  | [] => (st, buf, [])
  | i :: rest =>
    if st.running ∧ st.connected then
      let pinged := if i.pingDue then send_ping st i.sendOk else (st, [])
      let st1 := pinged.1
      let outP := pinged.2
      match i.ev with
      | .timeout =>
        let r := listenGo st1 buf rest
        (r.1, r.2.1, outP ++ r.2.2)
      | .closed => ({ st1 with connected := false }, buf, outP)
      | .err => ({ st1 with connected := false }, buf, outP)
      | .data s =>
        let dr := drainAux [] (buf ++ s)
        match handleLines st1 i.sendOk (framerEmit dr.1) with
        | none => ({ st1 with connected := false }, dr.2, outP)
        | some (st2, out2) =>
          let r := listenGo st2 dr.2 rest
          (r.1, r.2.1, outP ++ out2 ++ r.2.2)
    else (st, buf, [])

/-! ## Reconnect supervisor (`run_with_reconnect`, lines 219-250) -/

/-- `self.reconnect_delay` (line 39). -/
def initial_delay : Nat := 5

/-- `self.max_reconnect_delay` (line 40). -/
def max_delay : Nat := 300

/-- The doubling-with-ceiling update applied after every wait
(line 248): `reconnect_delay = min(reconnect_delay * 2, 300)`. -/
def nextDelay (d : Nat) : Nat := min (d * 2) max_delay

/-- The wait performed at the bottom of one supervisor iteration:
a successful connect first resets the local delay to
`self.reconnect_delay` (line 229), so the session-end wait is the
initial delay; a failed connect leaves it unchanged. -/
def sessionWait (d : Nat) (connected : Bool) : Nat :=
  if connected then initial_delay else d

/-- The sequence of backoff waits produced by a run of
`run_with_reconnect`, given the current delay and the connect outcome
of each iteration (every iteration that does not stop the bot ends in
exactly one `time.sleep(reconnect_delay)` followed by the doubling
update). -/
def waits : Nat → List Bool → List Nat
  | _, [] => []
  | d, ok :: rest =>
    sessionWait d ok :: waits (nextDelay (sessionWait d ok)) rest

/-! ## Basic lemmas -/

/-- `pySplitAll` never returns the empty list (Python `split` always
yields at least one piece). -/
theorem pySplitAll_ne_nil (c : Char) : ∀ s : List Char, pySplitAll c s ≠ [] := by
  intro s
  induction s with
  | nil => simp [pySplitAll]
  | cons x xs ih =>
    by_cases h : x = c
    · simp [pySplitAll, h]
    · simp only [pySplitAll, if_neg h]
      cases hr : pySplitAll c xs with
      | nil => simp
      | cons hd tl => simp

/-- Splitting on the first `=` of a tag that contains `=` yields
exactly two pieces, so the tuple unpacking succeeds. -/
theorem unpack2_pySplitMax1_isSome (tag : List Char)
    (h : '=' ∈ tag) :
    (unpack2 (pySplitMax1 '=' tag)).isSome = true := by
  simp [pySplitMax1, h, unpack2]

/-- The tag loop never raises. -/
theorem parseTagsAux_isSome : ∀ (ts : List (List Char)) (d : List (String × String)),
    (parseTagsAux ts d).isSome = true := by
  intro ts
  induction ts with
  | nil => intro d; simp [parseTagsAux]
  | cons tag rest ih =>
    intro d
    by_cases h : '=' ∈ tag
    · have htot := unpack2_pySplitMax1_isSome tag h
      cases hu : unpack2 (pySplitMax1 '=' tag) with
      | none => rw [hu] at htot; simp at htot
      | some kv => simp [parseTagsAux, h, hu, ih]
    · simp [parseTagsAux, h, ih]

/-- The first parsing stage never raises. -/
theorem parse_tags_part_isSome (cs : List Char) :
    (parse_tags_part cs).isSome = true := by
  unfold parse_tags_part
  split
  · exact parseTagsAux_isSome _ _
  · rfl

/-- `parse_message` is total: no input makes it raise. -/
theorem parse_message_isSome (s : String) : (parse_message s).isSome = true := by
  unfold parse_message
  cases h1 : parse_tags_part s.data with
  | none =>
    have htot := parse_tags_part_isSome s.data
    rw [h1] at htot
    simp at htot
  | some tags =>
    cases h2 : pySplitAll ' ' (after_pfx (after_tags s.data)) with
    | nil => exact absurd h2 (pySplitAll_ne_nil _ _)
    | cons c ps => rfl

/-! ## Claim theorems -/

/-- Claim C1: with initial delay 5 and ceiling 300, five consecutive
connect failures make the supervisor wait 5, 10, 20, 40, 80 seconds
before the respective retries; a successful connect resets the delay,
so the wait that follows the (eventually ended) successful session is
back to 5; and every wait the supervisor ever performs lies within
the interval from the initial delay to the ceiling. -/
theorem backoff_sequence_correct :
    waits initial_delay [false, false, false, false, false] =
      [5, 10, 20, 40, 80] ∧
    (∀ (d : Nat) (rest : List Bool),
      (waits d (true :: rest)).head? = some initial_delay) ∧
    (∀ (d : Nat) (outs : List Bool),
      initial_delay ≤ d → d ≤ max_delay →
      ∀ w ∈ waits d outs, initial_delay ≤ w ∧ w ≤ max_delay) := by
  refine ⟨by decide, ?_, ?_⟩
  · intro d rest
    simp [waits, sessionWait]
  · intro d outs
    induction outs generalizing d with
    | nil => intro _ _ w hw; simp [waits] at hw
    | cons ok rest ih =>
      intro h1 h2 w hw
      have hsw : initial_delay ≤ sessionWait d ok ∧
          sessionWait d ok ≤ max_delay := by
        cases ok
        · simpa [sessionWait, initial_delay, max_delay] using And.intro h1 h2
        · simp [sessionWait, initial_delay, max_delay]
      simp only [waits, List.mem_cons] at hw
      rcases hw with rfl | hw
      · exact hsw
      · refine ih (nextDelay (sessionWait d ok)) ?_ ?_ w hw
        · simp only [nextDelay, initial_delay, max_delay] at hsw ⊢
          omega
        · simp only [nextDelay, max_delay]
          omega

/-- Witness for C1 at a concrete delay and outcome list. -/
theorem backoff_sequence_correct_witness :
    initial_delay ≤ 20 ∧ 20 ≤ max_delay :=
  backoff_sequence_correct.2.2 20 [false] (by decide) (by decide) 20 (by decide)

/-- Claim C4: the sample tagged PRIVMSG line parses to the stated
tags, prefix, command and params (with the leading colon of the
trailing parameter left intact), and the dispatcher reconstruction
yields sender nick, room hash-room, and text with exactly one leading
colon stripped. -/
theorem parse_sample_privmsg_correct :
    parse_message
        "@badge=1;color=#fff :nick!user@host PRIVMSG #room :hello world" =
      some { raw :=
              "@badge=1;color=#fff :nick!user@host PRIVMSG #room :hello world"
             tags := [("badge", "1"), ("color", "#fff")]
             pfx := "nick!user@host"
             command := "PRIVMSG"
             params := ["#room", ":hello", "world"] } ∧
    (parse_message
        "@badge=1;color=#fff :nick!user@host PRIVMSG #room :hello world").bind
        privmsgParts =
      some ("#room", "nick", "hello world") := by
  constructor
  · decide
  · decide

/-- Claim C5: the message parser is pure and total; for every input
string (malformed ones included) it returns an event without raising,
and parsing the same line twice yields identical results. -/
theorem parse_message_total_idempotent (s : String) :
    (parse_message s).isSome = true ∧ parse_message s = parse_message s :=
  ⟨parse_message_isSome s, rfl⟩

/-- Claim C6 counterexample: constructing the bot with channel list
Foo, foo stores the channel foo twice, not once, so the configured
rooms are not de-duplicated. -/
theorem init_channels_not_deduplicated :
    (init "t" "b" ["Foo", "foo"] none).channels = ["foo", "foo"] ∧
    (init "t" "b" ["Foo", "foo"] none).channels.count "foo" = 2 := by
  constructor
  · decide
  · decide

/-- Claim C6 as amended: at construction time the room names are
normalized to lowercase in order, but duplicates are preserved: the
stored list is exactly the lowercasing of the input list. -/
theorem init_channels_lowercased :
    ∀ (tok user : String) (chans : List String) (ann : Option String),
      (init tok user chans ann).channels = chans.map lowerStr :=
  fun _ _ _ _ => rfl

/-- Claim C9: with a connected bot, an empty configured channel list
and no explicit room argument, `send_message` hits `self.channels[0]`
on an empty list and raises (modelled by `none`) instead of degrading
gracefully, even though the constructor accepts an empty list. -/
theorem send_message_empty_channels_raises :
    (∀ (st : BotState) (ok : Bool) (m : String),
      st.connected = true → st.channels = [] →
      send_message st ok m none = none) ∧
    (init "t" "b" [] none).channels = [] := by
  constructor
  · intro st ok m hc hch
    simp [send_message, hc, hch]
  · rfl

/-- Witness for C9 at a concrete connected state with no channels. -/
theorem send_message_empty_channels_raises_witness :
    send_message
      { oauth_token := "t", bot_username := "b", channels := [],
        announce_channel := none, connected := true, running := false,
        hi_sent := [] } true "x" none = none :=
  send_message_empty_channels_raises.1
    { oauth_token := "t", bot_username := "b", channels := [],
      announce_channel := none, connected := true, running := false,
      hi_sent := [] } true "x" rfl rfl

/-- Claim C7: every raw send operation (chat message, keepalive probe,
keepalive acknowledgment) emits bytes only when the connection flag is
set (it is a no-op otherwise), and on a send failure the flag drops
immediately while the failure is caught and reported, not propagated
to the caller. -/
theorem send_ops_guarded_and_fail_disconnect :
    ∀ (st : BotState) (m srv c : String) (ch : Option String) (ok : Bool),
      (st.connected = false →
        send_message st ok m ch = some (st, []) ∧
        send_pong st ok srv = (st, []) ∧
        send_ping st ok = (st, [])) ∧
      (∀ st' out, send_message st ok m ch = some (st', out) → out ≠ [] →
        st.connected = true) ∧
      ((send_pong st ok srv).2 ≠ [] → st.connected = true) ∧
      ((send_ping st ok).2 ≠ [] → st.connected = true) ∧
      (st.connected = true →
        send_pong st false srv = ({ st with connected := false }, []) ∧
        send_ping st false = ({ st with connected := false }, []) ∧
        (st.channels.contains (lowerStr c) = true →
          send_message st false m (some c) =
            some ({ st with connected := false }, []))) := by
  intro st m srv c ch ok
  refine ⟨?_, ?_, ?_, ?_, ?_⟩
  · intro h
    refine ⟨?_, ?_, ?_⟩ <;> simp [send_message, send_pong, send_ping, h]
  · intro st' out heq hne
    by_cases h : st.connected = true
    · exact h
    · rw [Bool.not_eq_true] at h
      simp [send_message, h] at heq
      exact absurd heq.2 hne
  · intro h
    by_cases hc : st.connected = true
    · exact hc
    · rw [Bool.not_eq_true] at hc
      simp [send_pong, hc] at h
  · intro h
    by_cases hc : st.connected = true
    · exact hc
    · rw [Bool.not_eq_true] at hc
      simp [send_ping, hc] at h
  · intro h
    refine ⟨by simp [send_pong, h], by simp [send_ping, h], ?_⟩
    intro hmem
    have hmem2 : lowerStr c ∈ st.channels := by simpa using hmem
    simp [send_message, h, hmem2]

/-- Witness for C7 at a concrete connected single-channel state. -/
theorem send_ops_guarded_and_fail_disconnect_witness :
    send_pong
        { oauth_token := "t", bot_username := "b", channels := ["foo"],
          announce_channel := none, connected := true, running := false,
          hi_sent := [] } false "srv" =
      ({ oauth_token := "t", bot_username := "b", channels := ["foo"],
         announce_channel := none, connected := false, running := false,
         hi_sent := [] }, []) :=
  ((send_ops_guarded_and_fail_disconnect
    { oauth_token := "t", bot_username := "b", channels := ["foo"],
      announce_channel := none, connected := true, running := false,
      hi_sent := [] } "m" "srv" "foo" none false).2.2.2.2 rfl).1

/-- Unfolding of the JOIN dispatch for announce room foo when the
greeting has not yet been recorded as sent. -/
theorem handle_join_foo (st : BotState) (ok : Bool)
    (hA : st.announce_channel = some "foo")
    (hs : st.hi_sent.contains "foo" = false) :
    handle_message st ok ":x JOIN #foo" =
      match send_message st ok "hi" (some "foo") with
      | none => none
      | some (st1, out) =>
        some ({ st1 with hi_sent := insertSet "foo" st1.hi_sent }, out) := by
  have hp : parse_message ":x JOIN #foo" =
      some { raw := ":x JOIN #foo", tags := [], pfx := "x",
             command := "JOIN", params := ["#foo"] } := by decide
  have h2 : lowerStr (lstripHash "#foo") = "foo" := by decide
  have he : "foo".isEmpty = false := by decide
  have hs2 : "foo" ∉ st.hi_sent := by simpa using hs
  unfold handle_message handle_join
  rw [hp]
  simp [hA, optTruthy, h2, he, hs2]

/-- Unfolding of the JOIN dispatch for announce room foo when the
greeting was already recorded: nothing happens. -/
theorem handle_join_foo_already_sent (st : BotState) (ok : Bool)
    (hA : st.announce_channel = some "foo")
    (hs : st.hi_sent.contains "foo" = true) :
    handle_message st ok ":x JOIN #foo" = some (st, []) := by
  have hp : parse_message ":x JOIN #foo" =
      some { raw := ":x JOIN #foo", tags := [], pfx := "x",
             command := "JOIN", params := ["#foo"] } := by decide
  have h2 : lowerStr (lstripHash "#foo") = "foo" := by decide
  have he : "foo".isEmpty = false := by decide
  have hs2 : "foo" ∈ st.hi_sent := by simpa using hs
  unfold handle_message handle_join
  rw [hp]
  simp [hA, optTruthy, h2, he, hs2]

/-- Claim C10: in the room-join greeting path the room is added to the
announced set unconditionally after the send attempt, even when the
connection was already lost (the greeting send is a silent no-op) or
the send raises (caught, connection dropped) -- and once recorded, a
later join confirmation for the room never retries the greeting. -/
theorem greeting_marked_announced_even_on_failed_send :
    (∀ st : BotState, st.announce_channel = some "foo" →
      st.hi_sent.contains "foo" = false →
      (st.connected = false →
        ∀ ok, handle_message st ok ":x JOIN #foo" =
          some ({ st with hi_sent := "foo" :: st.hi_sent }, [])) ∧
      (st.connected = true → st.channels.contains "foo" = true →
        handle_message st false ":x JOIN #foo" =
          some ({ st with connected := false,
                          hi_sent := "foo" :: st.hi_sent }, []))) ∧
    (∀ st : BotState, st.announce_channel = some "foo" →
      st.hi_sent.contains "foo" = true →
      ∀ ok, handle_message st ok ":x JOIN #foo" = some (st, [])) := by
  constructor
  · intro st hA hs
    have hins : insertSet "foo" st.hi_sent = "foo" :: st.hi_sent := by
      unfold insertSet
      rw [hs]
      simp
    constructor
    · intro hc ok
      rw [handle_join_foo st ok hA hs]
      simp [send_message, hc, hins]
    · intro hc hch
      have hch2 : "foo" ∈ st.channels := by simpa using hch
      rw [handle_join_foo st false hA hs]
      have hlow : lowerStr "foo" = "foo" := by decide
      simp [send_message, hc, hlow, hch2, hins]
  · intro st hA hs ok
    exact handle_join_foo_already_sent st ok hA hs

/-- Witness for C10 at a concrete disconnected state. -/
theorem greeting_marked_announced_even_on_failed_send_witness :
    handle_message
        { oauth_token := "t", bot_username := "b", channels := ["foo"],
          announce_channel := some "foo", connected := false,
          running := false, hi_sent := [] } true ":x JOIN #foo" =
      some ({ oauth_token := "t", bot_username := "b", channels := ["foo"],
              announce_channel := some "foo", connected := false,
              running := false, hi_sent := ["foo"] }, []) :=
  ((greeting_marked_announced_even_on_failed_send.1
    { oauth_token := "t", bot_username := "b", channels := ["foo"],
      announce_channel := some "foo", connected := false,
      running := false, hi_sent := [] } rfl rfl).1 rfl true)

/-- Dispatching a RECONNECT line only clears the connected flag: no
line is sent and no socket close is performed. -/
theorem handle_reconnect (st : BotState) (ok : Bool) :
    handle_message st ok ":tmi.twitch.tv RECONNECT" =
      some ({ st with connected := false }, []) := by
  have hp : parse_message ":tmi.twitch.tv RECONNECT" =
      some { raw := ":tmi.twitch.tv RECONNECT", tags := [],
             pfx := "tmi.twitch.tv", command := "RECONNECT",
             params := [] } := by decide
  unfold handle_message
  rw [hp]
  simp

/-- A disconnected bot makes the read loop exit at once, whatever
inputs are still scripted. -/
theorem listenGo_not_connected (st : BotState) (buf : List Char)
    (inps : List LoopInput) (h : st.connected = false) :
    listenGo st buf inps = (st, buf, []) := by
  cases inps with
  | nil => rfl
  | cons i rest =>
    unfold listenGo
    rw [if_neg]
    intro hand
    rw [h] at hand
    exact absurd hand.2 (by simp)

/-- Claim C8: a RECONNECT event dispatched while the loop is running
clears the connected flag immediately, with no send and no socket
close by the dispatcher; the read loop then terminates without a fatal
error, ignoring any further scripted inputs; and the supervisor
follows every ended session with exactly one backoff wait (one wait
per loop iteration, never a process exit). -/
theorem reconnect_event_ends_read_loop :
    (∀ (st : BotState) (ok : Bool),
      handle_message st ok ":tmi.twitch.tv RECONNECT" =
        some ({ st with connected := false }, [])) ∧
    (∀ (st : BotState) (ok : Bool) (rest : List LoopInput),
      st.running = true → st.connected = true →
      listenGo st []
        ({ pingDue := false,
           ev := RecvEvent.data ":tmi.twitch.tv RECONNECT\r\n".data,
           sendOk := ok } :: rest) =
        ({ st with connected := false }, [], [])) ∧
    (∀ (d : Nat) (outs : List Bool), (waits d outs).length = outs.length) := by
  refine ⟨handle_reconnect, ?_, ?_⟩
  · intro st ok rest hr hc
    have hdrain : drainAux [] (([] : List Char) ++
        ":tmi.twitch.tv RECONNECT\r\n".data) =
        ([":tmi.twitch.tv RECONNECT".data], []) := by decide
    have hemit : framerEmit [":tmi.twitch.tv RECONNECT".data] =
        [":tmi.twitch.tv RECONNECT".data] := by decide
    have hstr : (":tmi.twitch.tv RECONNECT".data).asString =
        ":tmi.twitch.tv RECONNECT" := by decide
    unfold listenGo
    rw [if_pos ⟨hr, hc⟩]
    simp only [Bool.false_eq_true, if_false, hdrain, hemit]
    unfold handleLines
    rw [hstr, handle_reconnect st ok]
    simp only [handleLines]
    rw [listenGo_not_connected _ _ rest rfl]
    simp
  · intro d outs
    induction outs generalizing d with
    | nil => rfl
    | cons ok rest ih => simp [waits, ih]

/-- Witness for C8 at a concrete running connected state. -/
theorem reconnect_event_ends_read_loop_witness :
    listenGo
        { oauth_token := "t", bot_username := "b", channels := ["foo"],
          announce_channel := none, connected := true, running := true,
          hi_sent := [] } []
        [{ pingDue := false,
           ev := RecvEvent.data ":tmi.twitch.tv RECONNECT\r\n".data,
           sendOk := true },
         { pingDue := true, ev := RecvEvent.timeout, sendOk := true }] =
      ({ oauth_token := "t", bot_username := "b", channels := ["foo"],
         announce_channel := none, connected := false, running := true,
         hi_sent := [] }, [], []) :=
  reconnect_event_ends_read_loop.2.1
    { oauth_token := "t", bot_username := "b", channels := ["foo"],
      announce_channel := none, connected := true, running := true,
      hi_sent := [] } true
    [{ pingDue := true, ev := RecvEvent.timeout, sendOk := true }] rfl rfl

/-- The total byte stream of the framing property. -/
def c3S : List Char := "A\r\nB\r\nC\r\n".data

/-- Lines emitted after the first `n` characters of `c3S` have been
processed in one piece. -/
def c3E (n : Nat) : List (List Char) := framerEmit (drainAux [] (c3S.take n)).1

/-- Retained buffer after the first `n` characters of `c3S` have been
processed in one piece. -/
def c3B (n : Nat) : List Char := (drainAux [] (c3S.take n)).2

/-- Feeding the slice of `c3S` between positions `n` and `m` into the
buffer state reached at position `n` advances the framer exactly to
the state at position `m` (checked for all 55 position pairs). -/
theorem c3_step : ∀ m : Nat, m ≤ 9 → ∀ n : Nat, n ≤ m →
    c3E n ++ framerEmit (drainAux [] (c3B n ++ (c3S.drop n).take (m - n))).1 =
      c3E m ∧
    (drainAux [] (c3B n ++ (c3S.drop n).take (m - n))).2 = c3B m := by decide

/-- Any chunk partition of a suffix of `c3S`, fed from the matching
intermediate state, ends in the final framer state. -/
theorem c3_feed : ∀ (chunks : List (List Char)) (n : Nat), n ≤ 9 →
    chunks.flatten = c3S.drop n →
    c3E n ++ (feedChunks (c3B n) chunks).1 = c3E 9 ∧
    (feedChunks (c3B n) chunks).2 = c3B 9 := by
  intro chunks
  induction chunks with
  | nil =>
    intro n hn hfl
    have hlenS : c3S.length = 9 := by decide
    have hdrop : (c3S.drop n).length = 0 := by rw [← hfl]; rfl
    rw [List.length_drop, hlenS] at hdrop
    have h9 : n = 9 := by omega
    subst h9
    exact ⟨by simp [feedChunks], by simp [feedChunks]⟩
  | cons c cs ih =>
    intro n hn hfl
    have hlenS : c3S.length = 9 := by decide
    rw [List.flatten_cons] at hfl
    have hlen : c.length + cs.flatten.length = 9 - n := by
      have hl := congrArg List.length hfl
      rw [List.length_append, List.length_drop, hlenS] at hl
      omega
    have hm : n + c.length ≤ 9 := by omega
    have hmn : n + c.length - n = c.length := by omega
    have htake : (c3S.drop n).take (n + c.length - n) = c := by
      rw [hmn, ← hfl]
      exact List.take_left c cs.flatten
    have hdrop2 : cs.flatten = c3S.drop (n + c.length) := by
      have hd := List.drop_left c cs.flatten
      rw [hfl, List.drop_drop] at hd
      exact hd.symm
    have hs := c3_step (n + c.length) hm n (by omega)
    rw [htake] at hs
    have ihm := ih (n + c.length) hm hdrop2
    constructor
    · show c3E n ++ (framerEmit (drainAux [] (c3B n ++ c)).1 ++
        (feedChunks (drainAux [] (c3B n ++ c)).2 cs).1) = c3E 9
      rw [hs.2, ← List.append_assoc, hs.1]
      exact ihm.1
    · show (feedChunks (drainAux [] (c3B n ++ c)).2 cs).2 = c3B 9
      rw [hs.2]
      exact ihm.2

/-- A buffer without the two-character terminator is drained to no
lines at all, the whole buffer being retained. -/
theorem drainAux_no_crlf : ∀ (acc buf : List Char), hasCRLF buf = false →
    drainAux acc buf = ([], acc.reverse ++ buf) := by
  intro acc buf
  induction acc, buf using drainAux.induct with
  | case1 acc => intro _; simp [drainAux]
  | case2 acc rest hne => intro h; simp [hasCRLF] at h
  | case3 acc ch rest hne ih =>
    intro h
    have h2 : hasCRLF rest = false := by
      rw [hasCRLF] at h
      · exact h
      · exact hne
    rw [drainAux]
    · rw [ih h2]
      simp
    · exact hne

/-- Claim C3: for every partition of the byte stream into chunks that
reassemble to the three-line sample, the framer emits exactly the
lines A, B, C in order with an empty final buffer, regardless of chunk
boundaries; a buffer holding no terminator yields no lines and is
retained whole; and every line the framer emits is non-empty after
stripping (empty-after-trim lines never reach the parser). -/
theorem framer_chunking_correct :
    (∀ chunks : List (List Char),
      chunks.flatten = "A\r\nB\r\nC\r\n".data →
      (feedChunks [] chunks).1 = ["A".data, "B".data, "C".data] ∧
      (feedChunks [] chunks).2 = []) ∧
    (∀ buf : List Char, hasCRLF buf = false →
      drainAux [] buf = ([], buf)) ∧
    (∀ (lines : List (List Char)) (l : List Char), l ∈ framerEmit lines →
      l ≠ [] ∧ ∃ orig ∈ lines, l = pyStrip orig) := by
  refine ⟨?_, ?_, ?_⟩
  · intro chunks hfl
    have h0 : c3B 0 = [] := by decide
    have hE0 : c3E 0 = [] := by decide
    have hE9 : c3E 9 = ["A".data, "B".data, "C".data] := by decide
    have hB9 : c3B 9 = [] := by decide
    have h := c3_feed chunks 0 (by omega) (by rw [hfl]; rfl)
    rw [h0, hE0] at h
    constructor
    · have h1 := h.1
      rw [hE9] at h1
      simpa using h1
    · rw [h.2, hB9]
  · intro buf h
    simpa using drainAux_no_crlf [] buf h
  · intro lines l hl
    unfold framerEmit at hl
    rw [List.mem_filter] at hl
    obtain ⟨hmem, hne⟩ := hl
    refine ⟨by simpa using hne, ?_⟩
    rw [List.mem_map] at hmem
    obtain ⟨orig, ho, rfl⟩ := hmem
    exact ⟨orig, ho, rfl⟩

/-- Witness for C3 at a partition whose boundary falls inside the
two-character terminator. -/
theorem framer_chunking_correct_witness :
    (feedChunks [] ["A\r".data, "\nB\r\nC\r\n".data]).1 =
      ["A".data, "B".data, "C".data] :=
  (framer_chunking_correct.1 ["A\r".data, "\nB\r\nC\r\n".data] (by decide)).1

/-! ## Lowercasing and greeting-line lemmas -/

/-- `Char.ofNat` on a valid codepoint round-trips through `toNat`. -/
theorem toNat_ofNat_valid (n : Nat) (h : n.isValidChar) :
    (Char.ofNat n).toNat = n := by
  rw [Char.ofNat, dif_pos h]
  rfl

/-- The codepoint arithmetic of ASCII lowercasing. -/
theorem lowerChar_toNat (c : Char) :
    (lowerChar c).toNat =
      if c.toNat ≥ 65 ∧ c.toNat ≤ 90 then c.toNat + 32 else c.toNat := by
  unfold lowerChar Char.toLower
  split
  case isTrue h =>
    rw [if_pos h]
    exact toNat_ofNat_valid (c.toNat + 32) (Or.inl (by omega))
  case isFalse h =>
    rw [if_neg h]

/-- Non-uppercase characters are fixed by lowercasing. -/
theorem lowerChar_eq_self (c : Char) (h : ¬(c.toNat ≥ 65 ∧ c.toNat ≤ 90)) :
    lowerChar c = c := by
  unfold lowerChar Char.toLower
  exact if_neg h

/-- Lowercasing a character twice equals lowercasing once. -/
theorem lowerChar_idem (c : Char) : lowerChar (lowerChar c) = lowerChar c := by
  by_cases h : c.toNat ≥ 65 ∧ c.toNat ≤ 90
  · have h1 : (lowerChar c).toNat = c.toNat + 32 := by
      rw [lowerChar_toNat, if_pos h]
    apply lowerChar_eq_self
    omega
  · rw [lowerChar_eq_self c h]
    exact lowerChar_eq_self c h

/-- Lowercasing a string twice equals lowercasing once (the JOIN
handler lowercases the room and `send_message` lowercases it again). -/
theorem lowerStr_idem (s : String) : lowerStr (lowerStr s) = lowerStr s := by
  unfold lowerStr
  simp only [List.map_map]
  congr 1
  apply List.map_congr_left
  intro a _
  exact lowerChar_idem a

/-- The greeting line for a room determines the room. -/
theorem privmsgLine_inj {a b m : String}
    (h : privmsgLine a m = privmsgLine b m) : a = b := by
  unfold privmsgLine at h
  have hd := congrArg String.data h
  simp only [String.data_append, List.append_assoc] at hd
  have hd2 := List.append_cancel_left hd
  have hd3 := List.append_cancel_right hd2
  cases a
  cases b
  exact congrArg String.mk hd3

/-- A line whose first two characters differ from PR is not a chat
message line. -/
theorem ne_privmsgLine_of_take2 {r m x : String} (c0 c1 : Char)
    (hx : x.data.take 2 = [c0, c1]) (hne : ¬(c0 = 'P' ∧ c1 = 'R')) :
    x ≠ privmsgLine r m := by
  intro he
  rw [he] at hx
  rw [show (privmsgLine r m).data.take 2 = ['P', 'R'] from rfl] at hx
  simp only [List.cons.injEq, and_true] at hx
  exact hne ⟨hx.1.symm, hx.2.symm⟩

/-- Number of greeting sends for room `r` in a list of sent lines. -/
def greetCount (r : String) (outs : List String) : Nat :=
  outs.countP (fun l => l == privmsgLine r "hi")

/-- `greetCount` distributes over concatenation. -/
theorem greetCount_append (r : String) (a b : List String) :
    greetCount r (a ++ b) = greetCount r a + greetCount r b :=
  List.countP_append _ _ _

/-- A list of lines none of which is the greeting has count zero. -/
theorem greetCount_eq_zero (r : String) (outs : List String)
    (h : ∀ l ∈ outs, l ≠ privmsgLine r "hi") : greetCount r outs = 0 := by
  unfold greetCount
  rw [List.countP_eq_zero]
  intro a ha
  simpa using h a ha

/-- The lines sent by a successful connect contain no greeting. -/
theorem greetCount_connect (r : String) (st : BotState) :
    greetCount r (connect_success st).2 = 0 := by
  apply greetCount_eq_zero
  intro l hl
  unfold connect_success at hl
  simp only [List.mem_cons, List.mem_map] at hl
  rcases hl with rfl | rfl | rfl | rfl | rfl | ⟨ch, _, rfl⟩
  · exact ne_privmsgLine_of_take2 'P' 'A' rfl (by decide)
  · exact ne_privmsgLine_of_take2 'N' 'I' rfl (by decide)
  · exact ne_privmsgLine_of_take2 'C' 'A' rfl (by decide)
  · exact ne_privmsgLine_of_take2 'C' 'A' rfl (by decide)
  · exact ne_privmsgLine_of_take2 'C' 'A' rfl (by decide)
  · exact ne_privmsgLine_of_take2 'J' 'O' rfl (by decide)

/-- The keepalive acknowledgment sends no greeting and leaves the
announced set unchanged. -/
theorem send_pong_no_greet (r srv : String) (st : BotState) (ok : Bool) :
    greetCount r (send_pong st ok srv).2 = 0 ∧
    (send_pong st ok srv).1.hi_sent = st.hi_sent := by
  unfold send_pong
  by_cases h : st.connected = true
  · rw [if_pos h]
    by_cases hok : ok = true
    · rw [if_pos hok]
      refine ⟨greetCount_eq_zero _ _ ?_, rfl⟩
      intro l hl
      simp only [List.mem_singleton] at hl
      subst hl
      exact ne_privmsgLine_of_take2 'P' 'O' rfl (by decide)
    · rw [Bool.not_eq_true] at hok
      subst hok
      exact ⟨rfl, rfl⟩
  · rw [Bool.not_eq_true] at h
    rw [h]
    exact ⟨rfl, rfl⟩

/-- Inserting preserves membership and adds the new element. -/
theorem insertSet_contains_self (x : String) (s : List String) :
    (insertSet x s).contains x = true := by
  unfold insertSet
  split
  case isTrue h => exact h
  case isFalse h => simp

/-- Inserting never removes a member. -/
theorem insertSet_mono (x y : String) (s : List String)
    (h : s.contains y = true) : (insertSet x s).contains y = true := by
  unfold insertSet
  split
  case isTrue _ => exact h
  case isFalse _ =>
    have hy : y ∈ s := by simpa using h
    simp [hy]

/-! ## One-shot greeting across the process lifetime -/

/-- A chat send with an explicit channel never raises, never touches
the announced set, and emits either nothing or exactly the one chat
line for the lowercased channel. -/
theorem send_message_explicit_cases (st : BotState) (ok : Bool) (m c : String) :
    ∃ st1 out1, send_message st ok m (some c) = some (st1, out1) ∧
      st1.hi_sent = st.hi_sent ∧
      (out1 = [] ∨ out1 = [privmsgLine (lowerStr c) m]) := by
  unfold send_message
  by_cases h : st.connected = true
  · rw [if_pos h]
    dsimp only
    by_cases hc : st.channels.contains (lowerStr c) = true
    · rw [if_pos hc]
      by_cases hok : ok = true
      · rw [if_pos hok]
        exact ⟨st, [privmsgLine (lowerStr c) m], rfl, rfl, Or.inr rfl⟩
      · rw [Bool.not_eq_true] at hok
        subst hok
        exact ⟨{ st with connected := false }, [], rfl, rfl, Or.inl rfl⟩
    · rw [if_neg hc]
      exact ⟨st, [], rfl, rfl, Or.inl rfl⟩
  · rw [Bool.not_eq_true] at h
    rw [h]
    exact ⟨st, [], by simp, rfl, Or.inl rfl⟩

/-- The greeting bookkeeping conjunction holds trivially for a
dispatch that sends nothing and leaves the announced set unchanged. -/
theorem greet_conj_noop {P : Prop} (st st' : BotState) (out : List String)
    (r : String) (hh : st'.hi_sent = st.hi_sent) (ho : out = []) :
    greetCount r out ≤ 1 ∧
    (1 ≤ greetCount r out →
      st'.hi_sent.contains r = true ∧ st.hi_sent.contains r = false ∧ P) ∧
    (st.hi_sent.contains r = true → st'.hi_sent.contains r = true) := by
  subst ho
  refine ⟨by simp [greetCount], ?_, ?_⟩
  · intro hc
    simp [greetCount] at hc
  · intro hc
    rw [hh]
    exact hc

/-- Greeting bookkeeping of one JOIN dispatch: at most one greeting is
emitted; a greeting for room `r` implies `r` was just recorded, was
not recorded before, and the JOIN params name `r`; recorded rooms stay
recorded. -/
theorem handle_join_greet (st : BotState) (ok : Bool) (parsed : Parsed)
    (st' : BotState) (out : List String)
    (h : handle_join st ok parsed = some (st', out)) (r : String) :
    greetCount r out ≤ 1 ∧
    (1 ≤ greetCount r out →
      st'.hi_sent.contains r = true ∧ st.hi_sent.contains r = false ∧
      ∃ p0 rest, parsed.params = p0 :: rest ∧ lowerStr (lstripHash p0) = r) ∧
    (st.hi_sent.contains r = true → st'.hi_sent.contains r = true) := by
  unfold handle_join at h
  by_cases ht : optTruthy st.announce_channel = true
  · rw [if_pos ht] at h
    cases hann : st.announce_channel with
    | none =>
      rw [hann] at h
      simp only [Option.some.injEq, Prod.mk.injEq] at h
      exact greet_conj_noop st st' out r (by rw [← h.1]) h.2.symm
    | some ann =>
      rw [hann] at h
      cases hps : parsed.params with
      | nil =>
        rw [hps] at h
        simp only [Option.some.injEq, Prod.mk.injEq] at h
        exact greet_conj_noop st st' out r (by rw [← h.1]) h.2.symm
      | cons p prest =>
        rw [hps] at h
        dsimp only at h
        by_cases hcond : lowerStr (lstripHash p) = ann ∧
            (!st.hi_sent.contains (lowerStr (lstripHash p))) = true
        · rw [if_pos hcond] at h
          obtain ⟨st1, out1, hsm, hhs, hout⟩ :=
            send_message_explicit_cases st ok "hi" (lowerStr (lstripHash p))
          rw [hsm] at h
          simp only [Option.some.injEq, Prod.mk.injEq] at h
          obtain ⟨hst, hout2⟩ := h
          subst hout2
          have hns : st.hi_sent.contains (lowerStr (lstripHash p)) = false := by
            have hb := hcond.2
            cases hx : st.hi_sent.contains (lowerStr (lstripHash p))
            · rfl
            · rw [hx] at hb
              simp at hb
          have hidem : lowerStr (lowerStr (lstripHash p)) = lowerStr (lstripHash p) :=
            lowerStr_idem (lstripHash p)
          rw [hidem] at hout
          rcases hout with rfl | rfl
          · refine ⟨by simp [greetCount], ?_, ?_⟩
            · intro hc
              simp [greetCount] at hc
            · intro hc
              rw [← hst]
              exact insertSet_mono _ _ _ (by rw [hhs]; exact hc)
          · by_cases hr : lowerStr (lstripHash p) = r
            · have hcount : greetCount r [privmsgLine (lowerStr (lstripHash p)) "hi"] = 1 := by
                rw [hr]
                simp [greetCount, List.countP_cons]
              refine ⟨by rw [hcount], ?_, ?_⟩
              · intro _
                refine ⟨?_, by rw [← hr]; exact hns, p, prest, rfl, hr⟩
                rw [← hst, ← hr]
                exact insertSet_contains_self _ _
              · intro hc
                rw [← hst]
                exact insertSet_mono _ _ _ (by rw [hhs]; exact hc)
            · have hcount : greetCount r [privmsgLine (lowerStr (lstripHash p)) "hi"] = 0 := by
                apply greetCount_eq_zero
                intro l hl
                simp only [List.mem_singleton] at hl
                subst hl
                intro he
                exact hr (privmsgLine_inj he)
              refine ⟨by rw [hcount]; omega, ?_, ?_⟩
              · intro hc
                rw [hcount] at hc
                omega
              · intro hc
                rw [← hst]
                exact insertSet_mono _ _ _ (by rw [hhs]; exact hc)
        · rw [if_neg hcond] at h
          simp only [Option.some.injEq, Prod.mk.injEq] at h
          exact greet_conj_noop st st' out r (by rw [← h.1]) h.2.symm
  · rw [if_neg ht] at h
    simp only [Option.some.injEq, Prod.mk.injEq] at h
    exact greet_conj_noop st st' out r (by rw [← h.1]) h.2.symm

/-- The line is a join confirmation whose first parameter names room
`r` (after hash-stripping and lowercasing). -/
def isJoinFor (r line : String) : Prop :=
  ∃ p, parse_message line = some p ∧ p.command = "JOIN" ∧
    ∃ p0 rest, p.params = p0 :: rest ∧ lowerStr (lstripHash p0) = r

/-- Greeting bookkeeping of one dispatched line. -/
theorem handle_message_greet (st : BotState) (ok : Bool) (line : String)
    (st' : BotState) (out : List String)
    (h : handle_message st ok line = some (st', out)) (r : String) :
    greetCount r out ≤ 1 ∧
    (1 ≤ greetCount r out →
      st'.hi_sent.contains r = true ∧ st.hi_sent.contains r = false ∧
      isJoinFor r line) ∧
    (st.hi_sent.contains r = true → st'.hi_sent.contains r = true) := by
  unfold handle_message at h
  cases hp : parse_message line with
  | none =>
    rw [hp] at h
    exact absurd h (by simp)
  | some parsed =>
    rw [hp] at h
    dsimp only at h
    by_cases h1 : parsed.command = "PING"
    · rw [if_pos h1] at h
      cases hps : parsed.params with
      | nil =>
        rw [hps] at h
        simp only [Option.some.injEq, Prod.mk.injEq] at h
        exact greet_conj_noop st st' out r (by rw [← h.1]) h.2.symm
      | cons p prest =>
        rw [hps] at h
        simp only [Option.some.injEq] at h
        have hfst := congrArg Prod.fst h
        have hsnd := congrArg Prod.snd h
        simp only at hfst hsnd
        have hsp := send_pong_no_greet r p st ok
        refine ⟨?_, ?_, ?_⟩
        · rw [← hsnd, hsp.1]
          exact Nat.zero_le 1
        · intro hc
          rw [← hsnd, hsp.1] at hc
          omega
        · intro hc
          rw [← hfst, hsp.2]
          exact hc
    · rw [if_neg h1] at h
      by_cases h2 : parsed.command = "001"
      · rw [if_pos h2] at h
        simp only [Option.some.injEq, Prod.mk.injEq] at h
        exact greet_conj_noop st st' out r (by rw [← h.1]) h.2.symm
      · rw [if_neg h2] at h
        by_cases h3 : parsed.command = "JOIN"
        · rw [if_pos h3] at h
          have hj := handle_join_greet st ok parsed st' out h r
          refine ⟨hj.1, ?_, hj.2.2⟩
          intro hc
          obtain ⟨ha, hb, p0, prest, hpp, hlr⟩ := hj.2.1 hc
          exact ⟨ha, hb, parsed, hp, h3, p0, prest, hpp, hlr⟩
        · rw [if_neg h3] at h
          by_cases h4 : parsed.command = "PRIVMSG"
          · rw [if_pos h4] at h
            simp only [Option.some.injEq, Prod.mk.injEq] at h
            exact greet_conj_noop st st' out r (by rw [← h.1]) h.2.symm
          · rw [if_neg h4] at h
            by_cases h5 : parsed.command = "NOTICE"
            · rw [if_pos h5] at h
              simp only [Option.some.injEq, Prod.mk.injEq] at h
              exact greet_conj_noop st st' out r (by rw [← h.1]) h.2.symm
            · rw [if_neg h5] at h
              by_cases h6 : parsed.command = "RECONNECT"
              · rw [if_pos h6] at h
                simp only [Option.some.injEq, Prod.mk.injEq] at h
                exact greet_conj_noop st st' out r (by rw [← h.1]) h.2.symm
              · rw [if_neg h6] at h
                simp only [Option.some.injEq, Prod.mk.injEq] at h
                exact greet_conj_noop st st' out r (by rw [← h.1]) h.2.symm

/-- Greeting bookkeeping of one lifetime step: a greeting can only
come from a dispatched JOIN confirmation. -/
theorem runStep_greet (st : BotState) (s : Step) (st' : BotState)
    (out : List String) (h : runStep st s = some (st', out)) (r : String) :
    greetCount r out ≤ 1 ∧
    (1 ≤ greetCount r out →
      st'.hi_sent.contains r = true ∧ st.hi_sent.contains r = false ∧
      ∃ line ok, s = Step.msg line ok ∧ isJoinFor r line) ∧
    (st.hi_sent.contains r = true → st'.hi_sent.contains r = true) := by
  cases s with
  | connectOk =>
    simp only [runStep, Option.some.injEq] at h
    have hfst := congrArg Prod.fst h
    have hsnd := congrArg Prod.snd h
    simp only at hfst hsnd
    refine ⟨?_, ?_, ?_⟩
    · rw [← hsnd, greetCount_connect]
      omega
    · intro hc
      rw [← hsnd, greetCount_connect] at hc
      omega
    · intro hc
      rw [← hfst]
      exact hc
  | connectFail =>
    simp only [runStep, connect_fail, Option.some.injEq, Prod.mk.injEq] at h
    exact greet_conj_noop st st' out r (by rw [← h.1]) h.2.symm
  | disconnect =>
    simp only [runStep, Option.some.injEq, Prod.mk.injEq] at h
    exact greet_conj_noop st st' out r (by rw [← h.1]) h.2.symm
  | msg line ok =>
    have hm := handle_message_greet st ok line st' out h r
    refine ⟨hm.1, ?_, hm.2.2⟩
    intro hc
    obtain ⟨ha, hb, hj⟩ := hm.2.1 hc
    exact ⟨ha, hb, line, ok, rfl, hj⟩

/-- Greeting bookkeeping of a whole lifetime trace: once a room is in
the announced set it is never greeted again (the set is never reset),
and a fresh room is greeted at most once, and only by a dispatched
JOIN confirmation for it. -/
theorem runTrace_greet : ∀ (steps : List Step) (st0 st : BotState)
    (outs : List String), runTrace st0 steps = some (st, outs) →
    ∀ r : String,
    (st0.hi_sent.contains r = true →
      greetCount r outs = 0 ∧ st.hi_sent.contains r = true) ∧
    (st0.hi_sent.contains r = false →
      greetCount r outs ≤ 1 ∧
      (1 ≤ greetCount r outs →
        st.hi_sent.contains r = true ∧
        ∃ line ok, Step.msg line ok ∈ steps ∧ isJoinFor r line)) := by
  intro steps
  induction steps with
  | nil =>
    intro st0 st outs h r
    simp only [runTrace, Option.some.injEq, Prod.mk.injEq] at h
    obtain ⟨h1, h2⟩ := h
    subst h1
    subst h2
    refine ⟨fun hc => ⟨rfl, hc⟩, fun _ => ⟨by simp [greetCount], ?_⟩⟩
    intro hcc
    simp [greetCount] at hcc
  | cons s rest ih =>
    intro st0 st outs h r
    unfold runTrace at h
    cases hs : runStep st0 s with
    | none =>
      rw [hs] at h
      exact absurd h (by simp)
    | some p1 =>
      obtain ⟨st1, out1⟩ := p1
      rw [hs] at h
      dsimp only at h
      cases ht : runTrace st1 rest with
      | none =>
        rw [ht] at h
        exact absurd h (by simp)
      | some p2 =>
        obtain ⟨st2, out2⟩ := p2
        rw [ht] at h
        simp only [Option.some.injEq, Prod.mk.injEq] at h
        obtain ⟨hst, houts⟩ := h
        subst hst
        subst houts
        have hstep := runStep_greet st0 s st1 out1 hs r
        have hih := ih st1 st2 out2 ht r
        rw [greetCount_append]
        constructor
        · intro hc0
          have hc1 : st1.hi_sent.contains r = true := hstep.2.2 hc0
          have h1z : greetCount r out1 = 0 := by
            by_contra hnz
            have hone : 1 ≤ greetCount r out1 := by omega
            have hfalse := (hstep.2.1 hone).2.1
            rw [hc0] at hfalse
            exact absurd hfalse (by simp)
          have h2 := hih.1 hc1
          exact ⟨by rw [h1z, h2.1], h2.2⟩
        · intro hc0
          by_cases hone : 1 ≤ greetCount r out1
          · have hs1 := hstep.2.1 hone
            have hcount1 : greetCount r out1 ≤ 1 := hstep.1
            have h2 := hih.1 hs1.1
            constructor
            · rw [h2.1]
              omega
            · intro _
              obtain ⟨line, ok, hmem, hjf⟩ := hs1.2.2
              refine ⟨h2.2, line, ok, ?_, hjf⟩
              rw [← hmem]
              exact List.mem_cons_self s rest
          · have h1z : greetCount r out1 = 0 := by omega
            cases hc1 : st1.hi_sent.contains r with
            | true =>
              have h2 := hih.1 hc1
              rw [h1z, h2.1]
              exact ⟨by omega, fun hcc => absurd hcc (by omega)⟩
            | false =>
              have h2 := hih.2 hc1
              rw [h1z]
              simp only [Nat.zero_add]
              refine ⟨h2.1, ?_⟩
              intro hcc
              obtain ⟨hcontains, line, ok, hmem, hjf⟩ := h2.2 hcc
              exact ⟨hcontains, line, ok, List.mem_cons_of_mem s hmem, hjf⟩

/-- Claim C2: starting from a freshly constructed bot, every room is
greeted at most once over any executed portion of the process
lifetime, and a greeting can appear only if a JOIN confirmation for
that room was dispatched within that portion (never before it); in
particular the concrete lifetime with two JOIN confirmations for the
announce room across a reconnect produces exactly one greeting. -/
theorem greeting_at_most_once_per_room :
    (∀ (tok user : String) (chans : List String) (annIn : Option String)
       (pre : List Step) (st : BotState) (outs : List String),
      runTrace (init tok user chans annIn) pre = some (st, outs) →
      ∀ r : String,
        greetCount r outs ≤ 1 ∧
        (1 ≤ greetCount r outs →
          ∃ line ok, Step.msg line ok ∈ pre ∧ isJoinFor r line)) ∧
    ((runTrace (init "t" "b" ["foo"] (some "foo"))
        [Step.connectOk, Step.msg ":x JOIN #foo" true, Step.disconnect,
         Step.connectOk, Step.msg ":x JOIN #foo" true]).map
        (fun p => greetCount "foo" p.2) = some 1) := by
  constructor
  · intro tok user chans annIn pre st outs h r
    have h0 : (init tok user chans annIn).hi_sent.contains r = false := rfl
    have ht := runTrace_greet pre (init tok user chans annIn) st outs h r
    have h2 := ht.2 h0
    exact ⟨h2.1, fun hc => (h2.2 hc).2⟩
  · decide

/-- Witness for C2 at a concrete one-join trace. -/
theorem greeting_at_most_once_per_room_witness :
    greetCount "foo"
      ["PASS t\r\n", "NICK b\r\n", "CAP REQ :twitch.tv/membership\r\n",
       "CAP REQ :twitch.tv/tags\r\n", "CAP REQ :twitch.tv/commands\r\n",
       "JOIN #foo\r\n", "PRIVMSG #foo :hi\r\n"] ≤ 1 :=
  ((greeting_at_most_once_per_room.1 "t" "b" ["foo"] (some "foo")
    [Step.connectOk, Step.msg ":x JOIN #foo" true]
    { oauth_token := "t", bot_username := "b", channels := ["foo"],
      announce_channel := some "foo", connected := true, running := false,
      hi_sent := ["foo"] }
    ["PASS t\r\n", "NICK b\r\n", "CAP REQ :twitch.tv/membership\r\n",
     "CAP REQ :twitch.tv/tags\r\n", "CAP REQ :twitch.tv/commands\r\n",
     "JOIN #foo\r\n", "PRIVMSG #foo :hi\r\n"] (by decide)) "foo").1

end TwitchBot
